import Mathlib

/-!
Verification of the SFTA data-preparation pipelines
(`prepare_eclipse_messages.py`, pipeline A, and `prepare_mozilla_messages.py`,
pipeline B) against their design specification.

Shallow embedding conventions:
* A source row is a `Row`; a value that pandas would hold as null/NaN (or a
  column access via `.get` on an absent column) is `Option.none`.
* A loaded table is a `Table`: per-table flags record which optional columns
  exist (in pandas a column exists for the whole table), plus the row list.
* Timestamps are modelled as seconds (`Int`) after an arbitrary epoch; the
  result of `pd.to_datetime(..., errors="coerce", utc=True)` on a cell is the
  row field `creation : Option Int` (`none` = unparseable or null, dropped by the
  filter, never an error).  A calendar date is modelled by its day index `d`;
  its midnight instant is `86400 * d` and its 23:59:59 instant is
  `86400 * d + 86399`, mirroring `pd.Timestamp(start + "T00:00:00Z")` and
  `pd.Timestamp(end + "T23:59:59Z")`.
* Fallible steps return `Except String`; a raised Python exception is
  `.error msg`.  Progress printing is dropped; warning prints that the spec
  talks about are returned explicitly as a `List String` of warnings.
* `int(n * 0.80)` and `int(n * 0.10)` are modelled as `8 * n / 10` and
  `n / 10` (natural floor division): for every row count in the representable
  range the double-precision products round to values with the same floor,
  so truncation agrees with exact floor arithmetic.
-/

namespace SFTA

/-- A raw source row.  Only the columns the pipelines read are modelled;
`none` stands for a null cell or for access to an absent column via
`Row.get` in `iterrows`. -/
structure Row where
  creation : Option Int
  detailEmail : Option String
  assignedTo : Option String
  summary_update : Option String
  summary : Option String
  description_update : Option String
  description : Option String
deriving Repr, DecidableEq

/-- A loaded table: column-existence flags (pandas columns exist table-wide)
plus the ordered rows.  `hasCreation` is existence of `creation_time`,
`hasDetailEmail` of `assigned_to_detail.email`, `hasAssignedTo` of
`assigned_to`. -/
structure Table where
  hasCreation : Bool
  hasDetailEmail : Bool
  hasAssignedTo : Bool
  rows : List Row
deriving Repr, DecidableEq

/-- `ensure_datetime_col` (eclipse lines 21–28): raise `KeyError` if the
creation-time column is absent, otherwise coerce (already done in the
`creation` field) and drop the rows whose value did not parse. -/
def ensure_datetime_col (t : Table) : Except String Table :=
  if t.hasCreation then
    .ok { t with rows := t.rows.filter (fun r => r.creation.isSome) }
  else
    .error "CSV must contain creation_time."

/-- The bound test applied by `filter_window` after the not-null filter:
`(df[col] >= s) & (df[col] <= e)` with `s = 86400 * startDay` and
`e = 86400 * endDay + 86399`.  A `none` compares false, as in pandas. -/
def boundTest (startDay endDay : Int) (r : Row) : Bool :=
  match r.creation with
  | some ts => decide (86400 * startDay ≤ ts) && decide (ts ≤ 86400 * endDay + 86399)
  | none => false

/-- `filter_window` (eclipse lines 30–34; mozilla main lines 100–107 inline
the same steps): ensure the creation column, then keep the rows inside the
closed window. -/
def filter_window (t : Table) (startDay endDay : Int) : Except String (List Row) := do
  let t2 ← ensure_datetime_col t
  .ok (t2.rows.filter (boundTest startDay endDay))

/-- The predicate the spec describes: the row parses and its instant lies in
the closed interval from start-of-day midnight to end-of-day 23:59:59. -/
def inWindow (startDay endDay : Int) (r : Row) : Bool :=
  match r.creation with
  | some ts => decide (86400 * startDay ≤ ts) && decide (ts ≤ 86400 * endDay + 86399)
  | none => false

/-- `_str_or_empty` (eclipse lines 49–57, mozilla lines 21–29): null/NaN
becomes the empty string, anything else its string form. -/
def str_or_empty (x : Option String) : String :=
  match x with
  | none => ""
  | some s => s

/-- `_coalesce_text` / `coalesce` (eclipse lines 59–64, mozilla lines 31–36):
first candidate that is non-empty after trimming; empty string if none is. -/
def coalesce_text : List (Option String) → String
  | [] => ""
  | c :: rest =>
    let s := (str_or_empty c).trim
    if s = "" then coalesce_text rest else s

/-- Derived `title` of a row (candidates `summary_update`, `summary`). -/
def titleOf (r : Row) : String :=
  coalesce_text [r.summary_update, r.summary]

/-- Derived `body` of a row (candidates `description_update`, `description`). -/
def bodyOf (r : Row) : String :=
  coalesce_text [r.description_update, r.description]

/-- Per-row value of `add_assignee_column` / `add_assignee` (eclipse lines
36–47, mozilla lines 38–49), given the two column-existence flags: start from
the detail-email column when it exists, `fillna` with the plain column when
that also exists, else the plain column alone, else empty; finally
`fillna("")`. -/
def assigneeOf (hasDetail hasAssigned : Bool) (r : Row) : String :=
  if hasDetail then
    if hasAssigned then str_or_empty (r.detailEmail.or r.assignedTo)
    else str_or_empty r.detailEmail
  else if hasAssigned then str_or_empty r.assignedTo
  else ""

/-- `add_assignee_column` at table level: every row is kept, in order, and
receives its derived assignee string. -/
def add_assignee_column (t : Table) : List (Row × String) :=
  t.rows.map (fun r => (r, assigneeOf t.hasDetailEmail t.hasAssignedTo r))

/-- Spec-side restatement of the assignee rule, written from the spec words:
the identity-detail value when that column exists and the value is non-null,
else the plain assignment value when that column exists and the value is
non-null, else the empty string. -/
def specAssignee (hasDetail hasAssigned : Bool) (r : Row) : String :=
  if hasDetail ∧ r.detailEmail.isSome then str_or_empty r.detailEmail
  else if hasAssigned ∧ r.assignedTo.isSome then str_or_empty r.assignedTo
  else ""

/-- Spec-side restatement of the title/body rule, written from the spec
words: the trimmed updated variant when non-empty, else the trimmed original
variant when non-empty, else the empty string. -/
def specCoalesce (updated original : Option String) : String :=
  if (str_or_empty updated).trim ≠ "" then (str_or_empty updated).trim
  else if (str_or_empty original).trim ≠ "" then (str_or_empty original).trim
  else ""

/-- `add_title_body` (mozilla lines 51–56): keep every row, in order, and
attach the derived title and body. -/
def add_title_body (rows : List Row) : List (Row × String × String) :=
  rows.map (fun r => (r, titleOf r, bodyOf r))

/-- Comparison used by `sort_values("creation_time")`: ascending instants,
null instants last (pandas `na_position` default). -/
def timeLe (a b : Row) : Bool :=
  match a.creation, b.creation with
  | some x, some y => decide (x ≤ y)
  | some _, none => true
  | none, some _ => false
  | none, none => true

/-- `df_span.sort_values("creation_time")`, modelled with a deterministic
comparison sort. -/
def sortByCreation (rows : List Row) : List Row :=
  rows.mergeSort timeLe

/-- Shortfall message of pipeline A (eclipse lines 150–151); it names the
actual in-window count and the target.  Thousands separators of the Python
format are abstracted away. -/
def belowTargetMsg (n target : Nat) : String :=
  "Only " ++ toString n ++ " rows in window (< target " ++ toString target ++ ")."

/-- Count reconciler of pipeline A (eclipse main lines 145–155): when the
target is truthy (non-zero) and the in-window count reaches it, sort
ascending by creation time and keep the oldest `target` rows; when the
target is truthy and the count falls short, warn and continue under
`--allow_below_target`, otherwise raise; a zero target skips the step. -/
def reconcileA (target : Nat) (allowBelow : Bool) (rows : List Row) :
    Except String (List Row × List String) :=
  if target ≠ 0 ∧ target ≤ rows.length then
    .ok ((sortByCreation rows).take target, ["trimmed to exact " ++ toString target])
  else if target ≠ 0 ∧ rows.length < target then
    if allowBelow then .ok (rows, [belowTargetMsg rows.length target])
    else .error (belowTargetMsg rows.length target)
  else .ok (rows, [])

/-- Mismatch error of pipeline B (mozilla lines 111–112); it names the actual
in-span count and the expected count. -/
def mismatchMsg (n expect : Nat) : String :=
  "In-span rows " ++ toString n ++ " != expected " ++ toString expect ++
    ". Rerun with --no_strict_count if you want to proceed anyway."

/-- Mismatch warning of pipeline B (mozilla line 114). -/
def mismatchWarn (n expect : Nat) : String :=
  "WARNING: In-span rows " ++ toString n ++ " != expected " ++ toString expect ++
    " (continuing)."

/-- Count reconciler of pipeline B (mozilla main lines 110–114): when the
expected count is truthy (non-zero) and the in-span count differs, raise in
strict mode, else only warn; rows are never trimmed; a zero expected count
skips the step. -/
def reconcileB (expect : Nat) (noStrict : Bool) (rows : List Row) :
    Except String (List Row × List String) :=
  if expect ≠ 0 ∧ ¬noStrict = true ∧ rows.length ≠ expect then
    .error (mismatchMsg rows.length expect)
  else if expect ≠ 0 ∧ rows.length ≠ expect then
    .ok (rows, [mismatchWarn rows.length expect])
  else .ok (rows, [])

/-- Modelled from the spec: the seeded pseudorandom key stream behind
`df.sample(frac=1.0, random_state=seed)`.  The numpy generator itself is
library code, not part of this repository; the spec constrains it only to be
a permutation depending solely on the seed and the record count.  A linear
congruential key per position realises that contract. -/
def prandKey (seed i : Nat) : Nat :=
  (1664525 * (seed + 309 * i) + 1013904223) % 4294967296

/-- Modelled from the spec: the seeded permutation of row positions used by
the splitter.  It is a function of the seed and the row count alone. -/
def permIndices (seed n : Nat) : List Nat :=
  (List.range n).mergeSort (fun i j => decide (prandKey seed i ≤ prandKey seed j))

/-- `df.sample(frac=1.0, random_state=seed).reset_index(drop=True)`: the rows
rearranged by the seeded permutation of positions. -/
def shuffleRows (seed : Nat) (l : List α) : List α :=
  (permIndices seed l.length).filterMap (fun i => l[i]?)

/-- The 80/10/10 split (eclipse main lines 159–168, mozilla main lines
119–128): shuffle with the seed, then slice at `int(n * 0.80)` and
`int(n * 0.10)`; the test slice absorbs the remainder. -/
def splitEighty (seed : Nat) (l : List α) : List α × List α × List α :=
  let n := l.length
  let shuf := shuffleRows seed l
  let nTrain := 8 * n / 10
  let nVal := n / 10
  (shuf.take nTrain, (shuf.drop nTrain).take nVal, shuf.drop (nTrain + nVal))

/-- `read_csv_with_fallback` (identical in both files, lines 14–19).  The
pandas reader is library code, so decoding is abstracted by its outcomes:
`tryPreferred` is the table when the preferred-encoding read succeeds and
`none` when it raises `UnicodeDecodeError`; `latin1Table` is the result of
the latin-1 retry.  The function returns the table, the encoding string the
code reports, and the warnings it prints.  Note the success branch of the
source returns the literal string "utf-8", not the `encoding` argument. -/
def read_csv_with_fallback (preferredEnc : String) (tryPreferred : Option Table)
    (latin1Table : Table) : Table × String × List String :=
  match tryPreferred with
  | some t => (t, "utf-8", [])
  | none =>
    (latin1Table, "latin-1",
      ["Warning: could not decode with " ++ preferredEnc ++ ", retrying latin-1"])

/-- An emitted record: the three derived strings every output row carries. -/
structure OutRow where
  title : String
  body : String
  assignee : String
deriving Repr, DecidableEq

/-- Enrichment of one row into its emitted form, as performed by
`add_assignee_column` plus the emitters (eclipse) or `add_assignee` plus
`add_title_body` (mozilla). -/
def enrichRow (hasDetail hasAssigned : Bool) (r : Row) : OutRow :=
  { title := titleOf r, body := bodyOf r,
    assignee := assigneeOf hasDetail hasAssigned r }

/-- A written output file: its name and its records in emission order. -/
structure Write where
  name : String
  records : List OutRow
deriving Repr, DecidableEq

/-- Arguments of pipeline A (eclipse), calendar dates as day indices. -/
structure EclipseArgs where
  seed : Nat
  startDay : Int
  endDay : Int
  targetExact : Nat
  allowBelowTarget : Bool
deriving Repr, DecidableEq

/-- Arguments of pipeline B (mozilla). -/
structure MozillaArgs where
  seed : Nat
  startDay : Int
  endDay : Int
  expectCount : Nat
  noStrictCount : Bool
deriving Repr, DecidableEq

/-- The three writes both pipelines perform once all checks passed: train and
valid as conversation files, test as the flat file. -/
def emitAll (hasDetail hasAssigned : Bool) (seed : Nat) (rows : List Row) : List Write :=
  let parts := splitEighty seed rows
  [ { name := "train_all.jsonl", records := parts.1.map (enrichRow hasDetail hasAssigned) },
    { name := "valid_all.jsonl", records := parts.2.1.map (enrichRow hasDetail hasAssigned) },
    { name := "test_all.csv", records := parts.2.2.map (enrichRow hasDetail hasAssigned) } ]

/-- Pipeline A end to end (eclipse `main`, lines 130–176): resolve the source
(`none` models that neither the given CSV nor the fallback file exists),
validate the creation column and window-filter, reconcile the count, then
derive, split and emit.  The returned list holds the files actually written,
in write order; `some msg` is a raised fatal error. -/
def runEclipse (a : EclipseArgs) (src : Option Table) : List Write × Option String :=
  match src with
  | none => ([], some "Neither the given CSV nor eclipse_my.csv exists.")
  | some t =>
    match filter_window t a.startDay a.endDay with
    | .error e => ([], some e)
    | .ok span =>
      match reconcileA a.targetExact a.allowBelowTarget span with
      | .error e => ([], some e)
      | .ok (rows, _warn) =>
        (emitAll t.hasDetailEmail t.hasAssignedTo a.seed rows, none)

/-- Pipeline B end to end (mozilla `main`, lines 94–136): resolve the source
(`none` models a missing CSV), validate the creation column and
window-filter, reconcile the count strictly or with a warning, then derive,
split and emit. -/
def runMozilla (a : MozillaArgs) (src : Option Table) : List Write × Option String :=
  match src with
  | none => ([], some "FileNotFoundError")
  | some t =>
    match filter_window t a.startDay a.endDay with
    | .error e => ([], some e)
    | .ok span =>
      match reconcileB a.expectCount a.noStrictCount span with
      | .error e => ([], some e)
      | .ok (rows, _warn) =>
        (emitAll t.hasDetailEmail t.hasAssignedTo a.seed rows, none)

/-! ## Helper lemmas -/

lemma filterMap_getElem_range (l : List α) :
    (List.range l.length).filterMap (fun i => l[i]?) = l := by
  induction l with
  | nil => simp
  | cons a l ih =>
    rw [List.length_cons, List.range_succ_eq_map]
    simp only [List.filterMap_cons, List.getElem?_cons_zero, List.filterMap_map,
      Function.comp_def, Nat.succ_eq_add_one, List.getElem?_cons_succ]
    rw [ih]

lemma permIndices_perm_range (seed n : Nat) :
    (permIndices seed n).Perm (List.range n) :=
  List.mergeSort_perm _ _

lemma shuffleRows_perm (seed : Nat) (l : List α) :
    (shuffleRows seed l).Perm l := by
  unfold shuffleRows
  have h := (permIndices_perm_range seed l.length).filterMap (fun i => l[i]?)
  rw [filterMap_getElem_range] at h
  exact h

lemma shuffleRows_length (seed : Nat) (l : List α) :
    (shuffleRows seed l).length = l.length :=
  (shuffleRows_perm seed l).length_eq

lemma timeLe_trans (a b c : Row) (hab : timeLe a b = true) (hbc : timeLe b c = true) :
    timeLe a c = true := by
  rcases a with ⟨ca, _, _, _, _, _, _⟩
  rcases b with ⟨cb, _, _, _, _, _, _⟩
  rcases c with ⟨cc, _, _, _, _, _, _⟩
  cases ca <;> cases cb <;> cases cc <;> simp_all [timeLe]
  omega

lemma timeLe_total (a b : Row) : (timeLe a b || timeLe b a) = true := by
  rcases a with ⟨ca, _, _, _, _, _, _⟩
  rcases b with ⟨cb, _, _, _, _, _, _⟩
  cases ca <;> cases cb <;> simp [timeLe]
  omega

lemma sortByCreation_perm (rows : List Row) :
    (sortByCreation rows).Perm rows :=
  List.mergeSort_perm rows timeLe

lemma sortByCreation_sorted (rows : List Row) :
    (sortByCreation rows).Pairwise (fun a b => timeLe a b = true) :=
  List.sorted_mergeSort timeLe_trans timeLe_total rows

lemma coalesce_pair_eq_spec (a b : Option String) :
    coalesce_text [a, b] = specCoalesce a b := by
  simp only [coalesce_text, specCoalesce]
  by_cases ha : (str_or_empty a).trim = "" <;>
    by_cases hb : (str_or_empty b).trim = "" <;>
    simp [ha, hb]

lemma assigneeOf_eq_spec (hd ha : Bool) (r : Row) :
    assigneeOf hd ha r = specAssignee hd ha r := by
  rcases r with ⟨_, de, at2, _, _, _, _⟩
  cases hd <;> cases ha <;> cases de <;> cases at2 <;>
    simp [assigneeOf, specAssignee, str_or_empty, Option.or]

lemma take_take_drop_append (s : List α) (m k : Nat) :
    s.take m ++ ((s.drop m).take k ++ s.drop (m + k)) = s := by
  rw [← List.drop_drop, List.take_append_drop, List.take_append_drop]

/-! ## Example data used by witnesses and counterexamples -/

/-- A sample in-window row. -/
def exRow : Row :=
  { creation := some 100, detailEmail := none, assignedTo := some "dev",
    summary_update := none, summary := some "a summary",
    description_update := none, description := none }

/-- A sample row far outside a small window. -/
def exRowLate : Row :=
  { exRow with creation := some 999999999 }

/-- A sample row whose creation time failed to parse. -/
def exRowBad : Row :=
  { exRow with creation := none }

/-- A sample table with the creation column present. -/
def exTable : Table :=
  { hasCreation := true, hasDetailEmail := true, hasAssignedTo := true,
    rows := [exRow, exRowLate, exRowBad] }

/-! ## Claim theorems -/

/-- **C1.** For every record list (the in-window records after
reconciliation) and every seed, the splitter produces three slices of the
single seeded permutation whose concatenation is exactly that permutation of
the record set — hence pairwise disjoint and together exhaustive, counted
with multiplicity — and whose sizes are `train = floor(0.80 n)`,
`valid = floor(0.10 n)`, `test = n - train - valid`, so the three counts sum
to `n`. -/
theorem splitEighty_partition (seed : Nat) (l : List Row) :
    ((splitEighty seed l).1 ++ (splitEighty seed l).2.1 ++ (splitEighty seed l).2.2).Perm l ∧
    (splitEighty seed l).1.length = 8 * l.length / 10 ∧
    (splitEighty seed l).2.1.length = l.length / 10 ∧
    (splitEighty seed l).2.2.length = l.length - 8 * l.length / 10 - l.length / 10 ∧
    (splitEighty seed l).1.length + (splitEighty seed l).2.1.length +
      (splitEighty seed l).2.2.length = l.length := by
  have hlen : (shuffleRows seed l).length = l.length := shuffleRows_length seed l
  have hperm := shuffleRows_perm seed l
  simp only [splitEighty]
  have htr : ((shuffleRows seed l).take (8 * l.length / 10)).length = 8 * l.length / 10 := by
    rw [List.length_take, hlen]
    omega
  have hva : (((shuffleRows seed l).drop (8 * l.length / 10)).take (l.length / 10)).length
      = l.length / 10 := by
    rw [List.length_take, List.length_drop, hlen]
    omega
  have hte : ((shuffleRows seed l).drop (8 * l.length / 10 + l.length / 10)).length
      = l.length - 8 * l.length / 10 - l.length / 10 := by
    rw [List.length_drop, hlen]
    omega
  refine ⟨?_, htr, hva, hte, ?_⟩
  · rw [List.append_assoc, take_take_drop_append]
    exact hperm
  · rw [htr, hva, hte]
    omega

/-- **C2.** For every table that carries the creation-time column and every
day-indexed date pair, the window filter succeeds (never raises) and returns
exactly the rows whose creation value parsed and lies in the closed interval
from start-day midnight to end-day 23:59:59; rows with an unparsed creation
value are silently excluded. -/
theorem filter_window_keeps_exactly (t : Table) (d1 d2 : Int)
    (h : t.hasCreation = true) :
    filter_window t d1 d2 = .ok (t.rows.filter (inWindow d1 d2)) := by
  simp only [filter_window, ensure_datetime_col, h, if_true, Except.bind, bind, pure]
  rw [List.filter_filter]
  congr 1
  apply List.filter_congr
  intro r _
  cases hr : r.creation <;> simp [boundTest, inWindow, hr]

/-- Witness for **C2**: at the concrete sample table (creation column
present, window days 0..1 seconds 0..172799) the filter keeps the parsed
in-window row and drops the late and the unparseable one. -/
theorem filter_window_keeps_exactly_witness :
    exTable.hasCreation = true ∧
    filter_window exTable 0 1 = .ok (exTable.rows.filter (inWindow 0 1)) ∧
    exTable.rows.filter (inWindow 0 1) = [exRow] :=
  ⟨rfl, filter_window_keeps_exactly exTable 0 1 rfl, by decide⟩

/-- **C3** (amended: restricted to a nonzero target, which is what the
truthiness guard `if args.target_exact` enforces).  For a nonzero target:
whenever the in-window count reaches the target, the reconciler succeeds and
keeps exactly `target` rows, drawn from the input (sub-permutation), sorted
ascending by creation time, and the timestamp of every kept row is at most that of every
excluded row (so max kept ≤ min excluded); whenever the count
falls short and the override flag is unset, it fails with the message naming
the shortfall counts.  The reconciler is a pure function, hence
deterministic. -/
theorem reconcileA_trims_or_fails (target : Nat) (allowBelow : Bool)
    (rows : List Row) (hpos : 0 < target) :
    (target ≤ rows.length →
      reconcileA target allowBelow rows =
        .ok ((sortByCreation rows).take target, ["trimmed to exact " ++ toString target]) ∧
      ((sortByCreation rows).take target).length = target ∧
      ((sortByCreation rows).take target).Subperm rows ∧
      ∀ x ∈ (sortByCreation rows).take target,
        ∀ y ∈ (sortByCreation rows).drop target, timeLe x y = true) ∧
    (rows.length < target → allowBelow = false →
      reconcileA target allowBelow rows = .error (belowTargetMsg rows.length target)) := by
  constructor
  · intro hge
    have hlen : (sortByCreation rows).length = rows.length :=
      (sortByCreation_perm rows).length_eq
    refine ⟨?_, ?_, ?_, ?_⟩
    · simp only [reconcileA]
      rw [if_pos ⟨by omega, hge⟩]
    · rw [List.length_take, hlen]
      omega
    · exact ((List.take_sublist target _).subperm).trans (sortByCreation_perm rows).subperm
    · have hsorted := sortByCreation_sorted rows
      rw [← List.take_append_drop target (sortByCreation rows)] at hsorted
      exact (List.pairwise_append.mp hsorted).2.2
  · intro hlt hallow
    simp only [reconcileA]
    rw [if_neg (by omega), if_pos ⟨by omega, hlt⟩, hallow]
    simp

/-- Witness for **C3**: at target 1 over two concrete rows the reconciler
keeps the single chronologically oldest row, and the shortfall branch is
exercised by the count bound. -/
theorem reconcileA_trims_or_fails_witness :
    0 < 1 ∧
    ((1 ≤ ([exRow, exRowLate] : List Row).length →
      reconcileA 1 false [exRow, exRowLate] =
        .ok ((sortByCreation [exRow, exRowLate]).take 1, ["trimmed to exact " ++ toString 1]) ∧
      ((sortByCreation [exRow, exRowLate]).take 1).length = 1 ∧
      ((sortByCreation [exRow, exRowLate]).take 1).Subperm [exRow, exRowLate] ∧
      ∀ x ∈ (sortByCreation [exRow, exRowLate]).take 1,
        ∀ y ∈ (sortByCreation [exRow, exRowLate]).drop 1, timeLe x y = true) ∧
    (([exRow, exRowLate] : List Row).length < 1 → false = false →
      reconcileA 1 false [exRow, exRowLate] =
        .error (belowTargetMsg ([exRow, exRowLate] : List Row).length 1))) :=
  ⟨by decide, reconcileA_trims_or_fails 1 false [exRow, exRowLate] (by decide)⟩

/-- Counterexample for **C3** as frozen: the claim quantifies over every
target, but at target 0 (the default-off value of `--target_exact`) the
in-window count 1 is at least the target, yet the reconciler keeps all 1
rows rather than exactly 0 chronologically oldest rows — the truthiness
guard disables trimming entirely. -/
theorem reconcileA_zero_target_cex :
    0 ≤ ([exRow] : List Row).length ∧
    reconcileA 0 false [exRow] = .ok ([exRow], []) ∧
    ([exRow] : List Row).length ≠ 0 :=
  ⟨by decide, rfl, by decide⟩

/-- **C4** (amended: restricted to a nonzero expected count, which is what
the truthiness guard `if args.expect_count` enforces).  For a nonzero
expected count: on a mismatch in strict mode the reconciler fails with the
message naming the actual and the expected count; on a mismatch with the
non-strict override it succeeds, returning only a warning; on an exact match
it succeeds silently; and in every successful case the rows passed
downstream are exactly the full in-window row list — no trimming ever. -/
theorem reconcileB_exact_match (expect : Nat) (noStrict : Bool)
    (rows : List Row) (hpos : 0 < expect) :
    (rows.length ≠ expect → noStrict = false →
      reconcileB expect noStrict rows = .error (mismatchMsg rows.length expect)) ∧
    (rows.length ≠ expect → noStrict = true →
      reconcileB expect noStrict rows = .ok (rows, [mismatchWarn rows.length expect])) ∧
    (rows.length = expect → reconcileB expect noStrict rows = .ok (rows, [])) ∧
    (∀ kept warns, reconcileB expect noStrict rows = .ok (kept, warns) → kept = rows) := by
  have hne : expect ≠ 0 := by omega
  refine ⟨?_, ?_, ?_, ?_⟩
  · intro hmm hstrict
    simp only [reconcileB, hstrict]
    rw [if_pos ⟨hne, by simp, hmm⟩]
  · intro hmm hstrict
    simp only [reconcileB, hstrict]
    rw [if_neg (by simp), if_pos ⟨hne, hmm⟩]
  · intro heq
    simp only [reconcileB]
    rw [if_neg (by simp [heq]), if_neg (by simp [heq])]
  · intro kept warns hok
    simp only [reconcileB] at hok
    split at hok
    · simp at hok
    · split at hok
      · exact (congrArg Prod.fst (Except.ok.inj hok)).symm
      · exact (congrArg Prod.fst (Except.ok.inj hok)).symm

/-- Witness for **C4**: with expected count 1 and one concrete in-span row
the match case succeeds with the untrimmed row list. -/
theorem reconcileB_exact_match_witness :
    0 < 1 ∧
    ((([exRow] : List Row).length ≠ 1 → false = false →
      reconcileB 1 false [exRow] = .error (mismatchMsg ([exRow] : List Row).length 1)) ∧
    (([exRow] : List Row).length ≠ 1 → false = true →
      reconcileB 1 false [exRow] = .ok ([exRow], [mismatchWarn ([exRow] : List Row).length 1])) ∧
    (([exRow] : List Row).length = 1 → reconcileB 1 false [exRow] = .ok ([exRow], [])) ∧
    (∀ kept warns, reconcileB 1 false [exRow] = .ok (kept, warns) → kept = [exRow])) :=
  ⟨by decide, reconcileB_exact_match 1 false [exRow] (by decide)⟩

/-- Counterexample for **C4** as frozen: the claim quantifies over every
expected count, but at expected count 0 the in-span count 1 differs from the
expected count and the non-strict override is unset, yet the reconciler
neither fails nor warns — the truthiness guard disables the check
entirely. -/
theorem reconcileB_zero_expect_cex :
    reconcileB 0 false [exRow] = .ok ([exRow], []) ∧
    ([exRow] : List Row).length ≠ 0 :=
  ⟨rfl, by decide⟩

/-- **C5.** For every table, the assignee deriver keeps every row in order
and attaches to each exactly the string the spec prescribes: the
identity-detail value when that column exists and the value is non-null,
else the plain assignment value when that column exists and the value is
non-null, else the empty string.  The result type is `String`, so the value
is total — never null — for every row of every input. -/
theorem assignee_matches_spec (t : Table) :
    (add_assignee_column t).length = t.rows.length ∧
    ∀ p ∈ add_assignee_column t,
      p.2 = specAssignee t.hasDetailEmail t.hasAssignedTo p.1 := by
  constructor
  · simp [add_assignee_column]
  · intro p hp
    simp only [add_assignee_column, List.mem_map] at hp
    obtain ⟨r, _, rfl⟩ := hp
    exact assigneeOf_eq_spec _ _ r

/-- **C6.** For every row, the derived title (resp. body) equals the
trimmed updated summary (resp. description) when that trimmed value is
non-empty, else the trimmed original when non-empty, else the empty string;
and the deriver keeps every row — a row with both candidates empty or
absent stays, with empty-string fields, and no error is possible (the
functions are total). -/
theorem title_body_matches_spec (r : Row) (rows : List Row) :
    titleOf r = specCoalesce r.summary_update r.summary ∧
    bodyOf r = specCoalesce r.description_update r.description ∧
    (add_title_body rows).length = rows.length ∧
    ∀ p ∈ add_title_body rows,
      p.2.1 = specCoalesce p.1.summary_update p.1.summary ∧
      p.2.2 = specCoalesce p.1.description_update p.1.description := by
  refine ⟨coalesce_pair_eq_spec _ _, coalesce_pair_eq_spec _ _,
    by simp [add_title_body], ?_⟩
  intro p hp
  simp only [add_title_body, List.mem_map] at hp
  obtain ⟨r2, _, rfl⟩ := hp
  exact ⟨coalesce_pair_eq_spec _ _, coalesce_pair_eq_spec _ _⟩

/-- **C7** evaluated at the failing input.  The claim says the loader
returns "the encoding actually used: the preferred encoding when the first
attempt succeeds".  The success branch of the source returns the literal string
"utf-8" regardless of the `encoding` argument, so with preferred encoding
"latin-1" and a successful first attempt the reported encoding is "utf-8",
not "latin-1" — while the fallback branch does behave as claimed (latin-1
plus a warning). -/
theorem read_csv_fallback_divergence :
    (read_csv_with_fallback "latin-1" (some exTable) exTable).1 = exTable ∧
    (read_csv_with_fallback "latin-1" (some exTable) exTable).2.1 = "utf-8" ∧
    "utf-8" ≠ "latin-1" ∧
    (read_csv_with_fallback "utf-8" none exTable).1 = exTable ∧
    (read_csv_with_fallback "utf-8" none exTable).2.1 = "latin-1" ∧
    (read_csv_with_fallback "utf-8" none exTable).2.2 ≠ [] :=
  ⟨rfl, rfl, by decide, rfl, rfl, by decide⟩

/-- **C8.** Re-running either pipeline with the same seed, the same source
table (same rows in the same order, here: the same resolved source) and the
same flags reproduces the emitted files record for record, and the seeded
permutation of positions depends only on the seed and the row count: two
inputs of equal length are shuffled by the identical index permutation.
Every model component is a pure function, so the seeded permutation is the
only source of apparent nondeterminism. -/
theorem runs_reproducible (a a2 : EclipseArgs) (b b2 : MozillaArgs)
    (src src2 srcM srcM2 : Option Table) (l1 l2 : List Row)
    (ha : a = a2) (hsrc : src = src2) (hb : b = b2) (hsrcM : srcM = srcM2)
    (hlen : l1.length = l2.length) :
    runEclipse a src = runEclipse a2 src2 ∧
    runMozilla b srcM = runMozilla b2 srcM2 ∧
    permIndices a.seed l1.length = permIndices a2.seed l2.length := by
  subst ha
  subst hsrc
  subst hb
  subst hsrcM
  exact ⟨rfl, rfl, by rw [hlen]⟩

/-- Sample arguments for pipeline A. -/
def exEclipseArgs : EclipseArgs :=
  { seed := 3407, startDay := 0, endDay := 1, targetExact := 1,
    allowBelowTarget := false }

/-- Sample arguments for pipeline B. -/
def exMozillaArgs : MozillaArgs :=
  { seed := 3407, startDay := 0, endDay := 1, expectCount := 1,
    noStrictCount := false }

/-- Witness for **C8**: concrete equal runs and two distinct single-row
lists shuffled by the same index permutation. -/
theorem runs_reproducible_witness :
    exEclipseArgs = exEclipseArgs ∧ (some exTable : Option Table) = some exTable ∧
    exMozillaArgs = exMozillaArgs ∧ ([exRow] : List Row).length = [exRowLate].length ∧
    (runEclipse exEclipseArgs (some exTable) = runEclipse exEclipseArgs (some exTable) ∧
     runMozilla exMozillaArgs (some exTable) = runMozilla exMozillaArgs (some exTable) ∧
     permIndices exEclipseArgs.seed ([exRow] : List Row).length
       = permIndices exEclipseArgs.seed ([exRowLate] : List Row).length) :=
  ⟨rfl, rfl, rfl, rfl,
    runs_reproducible exEclipseArgs exEclipseArgs exMozillaArgs exMozillaArgs
      (some exTable) (some exTable) (some exTable) (some exTable)
      [exRow] [exRowLate] rfl rfl rfl rfl rfl⟩

/-- **C9.** Whenever a run of either pipeline raises a fatal error — missing
source file, missing creation-time column, or count-policy violation without
override, all of which surface as `some` error here — the list of files
written is empty: every output write happens only after loading, validation,
window filtering and count reconciliation have all succeeded, so no partial
output is ever left behind. -/
theorem fatal_aborts_before_writes (a : EclipseArgs) (b : MozillaArgs)
    (src srcM : Option Table)
    (he : (runEclipse a src).2.isSome = true)
    (hm : (runMozilla b srcM).2.isSome = true) :
    (runEclipse a src).1 = [] ∧ (runMozilla b srcM).1 = [] := by
  constructor
  · cases src with
    | none => rfl
    | some t =>
      cases hf : filter_window t a.startDay a.endDay with
      | error e => simp [runEclipse, hf]
      | ok span =>
        cases hr : reconcileA a.targetExact a.allowBelowTarget span with
        | error e => simp [runEclipse, hf, hr]
        | ok pr =>
          obtain ⟨rows, warns⟩ := pr
          simp only [runEclipse, hf, hr] at he
          simp at he
  · cases srcM with
    | none => rfl
    | some t =>
      cases hf : filter_window t b.startDay b.endDay with
      | error e => simp [runMozilla, hf]
      | ok span =>
        cases hr : reconcileB b.expectCount b.noStrictCount span with
        | error e => simp [runMozilla, hf, hr]
        | ok pr =>
          obtain ⟨rows, warns⟩ := pr
          simp only [runMozilla, hf, hr] at hm
          simp at hm

/-- Witness for **C9**: with no source file at all both pipelines raise, and
both write traces are empty. -/
theorem fatal_aborts_before_writes_witness :
    (runEclipse exEclipseArgs none).2.isSome = true ∧
    (runMozilla exMozillaArgs none).2.isSome = true ∧
    ((runEclipse exEclipseArgs none).1 = [] ∧ (runMozilla exMozillaArgs none).1 = []) :=
  ⟨rfl, rfl, fatal_aborts_before_writes exEclipseArgs exMozillaArgs none none rfl rfl⟩

/-- **C10.** A zero count parameter disables the count reconcilers entirely:
pipeline A with `target_exact = 0` and pipeline B with `expect_count = 0`
return the in-window rows untrimmed, raise no error and emit no warning,
whatever the actual row count and whatever the override flags. -/
theorem zero_count_disables_reconcilers (allowBelow noStrict : Bool)
    (rowsA rowsB : List Row) :
    reconcileA 0 allowBelow rowsA = .ok (rowsA, []) ∧
    reconcileB 0 noStrict rowsB = .ok (rowsB, []) := by
  constructor
  · simp [reconcileA]
  · simp [reconcileB]

end SFTA
